import Mathlib

/-!
Verification development for the multitrack-archive extractor scripts
(`download_full_multitracks.py`, `download_telefunken_multitracks.py`,
`download_utils.py`).

The Python sources are shallowly embedded: pure string manipulation is
translated directly; the HTML/JSON parsing libraries and the network are
modelled as structured inputs (a page is the list of download blocks or
anchors the parser would yield, a response is a status code plus payload);
the filesystem is modelled as an explicit name-to-content map threaded
through the functions that touch it; console rendering and progress-bar
updates are display-only and therefore omitted.  Python exceptions become
`Except` values.
-/

namespace Extractor

/-! ### Python string primitives -/

/-- Model of Python `str.lower` (the filenames handled here are ASCII). -/
def pyLower (s : String) : String := ⟨s.data.map Char.toLower⟩

/-- Model of the Python substring test `needle in haystack`. -/
def pyContains (haystack needle : String) : Bool :=
  haystack.data.tails.any (fun t => needle.data.isPrefixOf t)

/-- Model of Python `s.startswith(pre)`. -/
def pyStartsWith (s pre : String) : Bool := pre.data.isPrefixOf s.data

/-- Model of Python `s.strip()`: drop whitespace from both ends. -/
def pyStrip (s : String) : String :=
  ⟨((s.data.dropWhile Char.isWhitespace).reverse.dropWhile Char.isWhitespace).reverse⟩

/-- Splitting a character list at every separator (empty pieces kept),
the workhorse of the Python `str.split` models. -/
def splitChars (p : Char → Bool) : List Char → List (List Char)
  | [] => [[]]
  | c :: cs =>
    match splitChars p cs with
    | [] => if p c then [[], []] else [[c]]
    | piece :: rest => if p c then [] :: piece :: rest else (c :: piece) :: rest

/-- Model of `s.split(sep)` (one-character separators suffice here). -/
def pySplit (p : Char → Bool) (s : String) : List String :=
  (splitChars p s.data).map String.mk

/-- Everything before the first occurrence of `c`, which models both
`s.split(c)[0]` and `s.split(c, 1)[0]` in Python. -/
def takeBefore (c : Char) (s : String) : String :=
  ⟨s.data.takeWhile (fun d => d ≠ c)⟩

/-- Model of Python `s.rstrip("/")`: remove every trailing slash. -/
def pyRstripSlash (s : String) : String :=
  ⟨(s.data.reverse.dropWhile (fun d => d = '/')).reverse⟩

/-- Model of Python `" ".join(s.split()).lower()`: collapse whitespace runs
to single spaces, trim the ends, lower-case. -/
def normalizeLabel (s : String) : String :=
  pyLower (String.intercalate " " ((pySplit Char.isWhitespace s).filter (fun w => w ≠ "")))

/-- Lexicographic comparison of character lists by code point, the order
Python uses to compare strings. -/
def charListLe : List Char → List Char → Bool
  | [], _ => true
  | _ :: _, [] => false
  | a :: as, b :: bs =>
    if a.toNat < b.toNat then true
    else if b.toNat < a.toNat then false
    else charListLe as bs

/-- Python string comparison `a <= b`. -/
def pyStrLe (a b : String) : Bool := charListLe a.data b.data

/-- Insert into a list kept in ascending `pyStrLe` order. -/
def insertSorted (x : String) : List String → List String
  | [] => [x]
  | y :: ys => if pyStrLe x y then x :: y :: ys else y :: insertSorted x ys

/-- Model of Python `sorted` on the distinct string lists used here:
insertion sort under the code-point order. -/
def pySorted (l : List String) : List String := l.foldr insertSorted []

/-- Model of Python `sorted(set(l))`: the distinct elements in ascending
order.  `List.dedup` is used purely as a set of elements; the subsequent
sort fixes the order. -/
def pySortedSet (l : List String) : List String := pySorted l.dedup

/-! ### URL primitives

Models of `urllib.parse` helpers for the URL shapes occurring in this
repository: absolute base URLs of the form `scheme://host/path...`, and
hrefs that are either absolute, root-relative, or relative. -/

/-- Does the string contain a `://` scheme separator? -/
def hasScheme (s : String) : Bool := pyContains s "://"

/-- The characters after the first `://` (netloc onward). -/
def afterSchemeMark : List Char → List Char
  | [] => []
  | c :: cs => if "://".data.isPrefixOf (c :: cs) then cs.drop 2 else afterSchemeMark cs

/-- Model of `urlparse(url).path`: strip the fragment, the scheme and
netloc, and the query string. -/
def urlPath (url : String) : String :=
  let noFrag := takeBefore '#' url
  let afterHost :=
    if hasScheme noFrag then
      String.mk ((afterSchemeMark noFrag.data).dropWhile (fun c => c ≠ '/'))
    else noFrag
  takeBefore '?' afterHost

/-- The `scheme://netloc` part of an absolute URL (the characters not in
the slash-initiated tail after the scheme mark). -/
def schemeAndHost (url : String) : String :=
  let tail_len := ((afterSchemeMark url.data).dropWhile (fun c => c ≠ '/')).length
  String.mk (url.data.take (url.data.length - tail_len))

/-- Everything up to and including the last `/` of the URL, used to
resolve a relative href. -/
def urlDirOf (url : String) : String :=
  ⟨(url.data.reverse.dropWhile (fun c => c ≠ '/')).reverse⟩

/-- Model of `urllib.parse.urljoin(base, href)` for the href shapes used
here: an empty href yields the base, an href with a scheme stands alone, a
root-relative href replaces the base path, any other href replaces the
last segment of the base path. -/
def urljoin (base href : String) : String :=
  if href = "" then base
  else if hasScheme href then href
  else if pyStartsWith href "/" then schemeAndHost base ++ href
  else urlDirOf base ++ href

/-- Model of `pathlib.Path(p).name` for the slash-separated URL paths used
here: the last component, ignoring empty and `.` segments. -/
def pathBasename (p : String) : String :=
  match ((pySplit (fun c => c = '/') p).filter (fun seg => seg ≠ "" ∧ seg ≠ ".")).getLast? with
  | some seg => seg
  | none => ""

/-- Embedding of `infer_filename` (identical in both vendor scripts):
derive a filename from the path basename of a URL, stripping any query
suffix; `none` models the Python `return None` paths, and the returned
string may still be empty (callers test falsiness). -/
def infer_filename (url : String) : Option String :=
  let path := urlPath url
  if path = "" then none
  else
    let filename := pathBasename path
    if filename = "" then none
    else if pyContains filename "?" then some (takeBefore '?' filename)
    else some filename

/-! ### Vendor A catalog fetcher (`iterate_full_multitrack_links`)

The BeautifulSoup tree traversal is modelled at the level of its results:
a parsed index page is the list of `.m-mtk-download` blocks, each block
carrying the text of its `.m-mtk-download__type` element (when present),
the href of the first `a[href]` inside `.m-mtk-download__links` (when
present), and the href of the first `a[href]` anywhere in the block (when
present). -/

structure DownloadBlock where
  type_label : Option String
  links_anchor : Option String
  first_anchor : Option String
deriving DecidableEq, Repr

/-- Anchor selection inside one block: prefer the links-container anchor,
fall back to the first anchor of the block. -/
def blockAnchor (b : DownloadBlock) : Option String :=
  match b.links_anchor with
  | some h => some h
  | none => b.first_anchor

/-- The candidate (filename, absolute url) pair one download block
contributes, or `none` if any of the `continue` guards of the source loop
fires: missing type element, label not starting with `full multitrack`, no
anchor, empty href, or no inferable filename. -/
def blockCandidate (base_url : String) (b : DownloadBlock) : Option (String × String) :=
  match b.type_label with
  | none => none
  | some t =>
    if ¬ pyStartsWith (normalizeLabel t) "full multitrack" then none
    else
      match blockAnchor b with
      | none => none
      | some href =>
        if href = "" then none
        else
          let full_url := urljoin base_url href
          match infer_filename full_url with
          | none => none
          | some filename =>
            if filename = "" then none else some (filename, full_url)

/-- Model of `dict.setdefault(k, v)` on an insertion-ordered association
list: append the pair only when the key is not yet bound. -/
def setdefault (m : List (String × String)) (k v : String) : List (String × String) :=
  if m.any (fun p => p.1 = k) then m else m ++ [(k, v)]

/-- Embedding of `iterate_full_multitrack_links`: fold every download
block of the page into an insertion-ordered filename-to-URL map. -/
def iterate_full_multitrack_links (blocks : List DownloadBlock) (base_url : String) :
    List (String × String) :=
  blocks.foldl
    (fun m b =>
      match blockCandidate base_url b with
      | none => m
      | some (filename, full_url) => setdefault m filename full_url)
    []

/-! ### Local inventory scanner (`gather_existing_files`) -/

/-- One directory entry as seen by `Path.iterdir`: a name plus whether the
entry is a regular file. -/
structure DirEntry where
  name : String
  is_file : Bool
deriving DecidableEq, Repr

/-- One candidate directory: `is_present` models the combined Python
guards (truthy path, `exists()` and `is_dir()` after `expanduser`). -/
structure LocalDir where
  is_present : Bool
  entries : List DirEntry
deriving DecidableEq, Repr

/-- Embedding of `gather_existing_files`: the lower-cased names of the
regular files directly inside every present directory.  The Python `set`
is modelled as a list used only through membership. -/
def gather_existing_files (directories : List LocalDir) : List String :=
  directories.foldl
    (fun names d =>
      if d.is_present then
        names ++ (d.entries.filter (fun e => e.is_file)).map (fun e => pyLower e.name)
      else names)
    []

/-! ### Diff engine

Embedding of the presence bookkeeping of each `main` (vendor A lines
298-316, vendor B lines 294-311): count the already-present catalog names
and keep, in catalog order, the entries still to process. -/

structure DiffCounts where
  present_count : Nat
  to_process : List (String × String)
  missing_count : Nat
deriving DecidableEq, Repr

/-- Vendor A diff: `catalog_filenames` is the set of lower-cased keys of
the link map, `present_count` counts its members found in the inventory,
and an entry is kept for processing unless it is present and overwrite is
off. -/
def diffA (link_map : List (String × String)) (existing : List String) (overwrite : Bool) :
    DiffCounts :=
  let catalog_filenames := (link_map.map (fun p => pyLower p.1)).dedup
  let present_count := (catalog_filenames.filter (fun n => n ∈ existing)).length
  let to_process := link_map.filter (fun p => ¬ (pyLower p.1 ∈ existing ∧ overwrite = false))
  ⟨present_count, to_process, to_process.length⟩

/-- One vendor B catalog entry: filename, download URL, detail-page URL. -/
abbrev EntryB := String × String × String

structure DiffCountsB where
  present_count : Nat
  to_process : List EntryB
  missing_count : Nat
deriving DecidableEq, Repr

/-- Vendor B diff: `present_count` iterates the entry list itself (not a
deduplicated set), otherwise the same shape as vendor A. -/
def diffB (entries : List EntryB) (existing : List String) (overwrite : Bool) : DiffCountsB :=
  let present_count := (entries.filter (fun e => pyLower e.1 ∈ existing)).length
  let to_process := entries.filter (fun e => ¬ (pyLower e.1 ∈ existing ∧ overwrite = false))
  ⟨present_count, to_process, to_process.length⟩

/-! ### Download executor (`download_with_progress`)

The target directory is modelled as an explicit map from filename to byte
content (`Fs`); the network as a function from URL to a response carrying
the HTTP status, the streamed chunks actually delivered, and an optional
error raised by the stream after those chunks.  Progress-bar bookkeeping
(the `Content-Length` parse and the `progress.update` calls) only drives
the display and is omitted. -/

/-- Filesystem state: content of the target directory, filename to bytes. -/
abbrev Fs := List (String × List Nat)

def fsExists (fs : Fs) (name : String) : Bool := fs.any (fun p => p.1 = name)

/-- Writing a file replaces any previous binding for its name (the Python
`open("wb")` truncates). -/
def fsWrite (fs : Fs) (name : String) (content : List Nat) : Fs :=
  (fs.filter (fun p => p.1 ≠ name)) ++ [(name, content)]

/-- One streamed HTTP response: status code, the chunks the iterator
yields before it either finishes or raises `stream_error`. -/
structure HttpResponse where
  status : Nat
  chunks : List (List Nat)
  stream_error : Option String
deriving Repr

/-- Model of `requests` `raise_for_status`: client and server error codes
raise. -/
def statusRaises (status : Nat) : Bool := 400 ≤ status ∧ status < 600

/-- Result of one `download_with_progress` call: the returned pair or the
raised exception, the filesystem afterwards, and the list of URLs for
which a GET was issued. -/
structure DlResult where
  outcome : Except String (Bool × Nat)
  fs : Fs
  gets : List String
deriving Repr

/-- Embedding of `download_with_progress`.  The early return fires before
any network access; otherwise the GET is recorded, an error status raises,
and the write loop appends every non-empty chunk to the destination file
before the stream either completes or raises (leaving the partial file in
place, since the source performs no cleanup). -/
def download_with_progress (fs : Fs) (net : String → HttpResponse) (url : String)
    (destination : String) (overwrite : Bool) : DlResult :=
  if fsExists fs destination ∧ overwrite = false then
    ⟨.ok (false, 0), fs, []⟩
  else
    let response := net url
    if statusRaises response.status then
      ⟨.error "HTTPError", fs, [url]⟩
    else
      let written := (response.chunks.filter (fun c => c ≠ [])).flatten
      let fs1 := fsWrite fs destination written
      match response.stream_error with
      | some e => ⟨.error e, fs1, [url]⟩
      | none => ⟨.ok (true, written.length), fs1, [url]⟩

/-! ### The per-item download loop

Both `main` functions run the identical loop (vendor A lines 349-378,
vendor B lines 348-377).  What `download_with_progress` does for the item
at a given index is abstracted as an oracle `attempt : Nat → AttemptResult`
(its concrete behaviour is proved separately); the loop embedding captures
the try/except control flow, the result rows, the accumulators and the
sleep pacing.  The observable actions are returned as an event trace. -/

inductive AttemptResult
  | ok (updated : Bool) (bytes : Nat)
  | exc (msg : String)
deriving DecidableEq, Repr

def isExc : AttemptResult → Bool
  | .exc _ => true
  | _ => false

inductive Ev
  | item (filename : String)
  | sleep (d : Rat)
deriving DecidableEq, Repr

def isSleepEv : Ev → Bool
  | .sleep _ => true
  | _ => false

structure LoopState where
  results : List (String × String × String)
  total_bytes : Nat
  downloaded_count : Nat
  failed : Bool
deriving DecidableEq, Repr

def initLoopState : LoopState := ⟨[], 0, 0, false⟩

/-- The summary row the loop appends for one item. -/
def rowFor (target_dir filename : String) : AttemptResult → String × String × String
  | .exc msg => (filename, "[red]Failed[/]", msg)
  | .ok true _ => (filename, "[green]Downloaded[/]", target_dir ++ "/" ++ filename)
  | .ok false _ => (filename, "[yellow]Skipped[/]", target_dir ++ "/" ++ filename)

/-- State update of the `except` arm of the loop body: append a Failed
row and set the failure flag. -/
def stepExc (st : LoopState) (filename msg : String) : LoopState :=
  { st with
    results := st.results ++ [(filename, "[red]Failed[/]", msg)],
    failed := true }

/-- State update after a normal `download_with_progress` return: a
Downloaded row plus the byte and count accumulators when `updated`, a
Skipped row otherwise. -/
def stepOk (target_dir : String) (st : LoopState) (filename : String) (updated : Bool)
    (bytes : Nat) : LoopState :=
  if updated then
    { st with
      results := st.results ++
        [(filename, "[green]Downloaded[/]", target_dir ++ "/" ++ filename)],
      downloaded_count := st.downloaded_count + 1,
      total_bytes := st.total_bytes + bytes }
  else
    { st with
      results := st.results ++
        [(filename, "[yellow]Skipped[/]", target_dir ++ "/" ++ filename)] }

/-- The loop body from index `idx` on, with `total` the length of the full
work list (the sleep guard compares the index against it).  On an
exception the source `continue` skips the sleep; otherwise a sleep event
is emitted when the delay is positive and the item is not the last. -/
def runItemsAux (target_dir : String) (delay : Rat) (attempt : Nat → AttemptResult)
    (total : Nat) : Nat → List (String × String) → LoopState → LoopState × List Ev
  | _, [], st => (st, [])
  | idx, (filename, _url) :: rest, st =>
    match attempt idx with
    | .exc msg =>
      let r := runItemsAux target_dir delay attempt total (idx + 1) rest (stepExc st filename msg)
      (r.1, Ev.item filename :: r.2)
    | .ok updated bytes =>
      let pauses := if 0 < delay ∧ idx < total - 1 then [Ev.sleep delay] else []
      let r := runItemsAux target_dir delay attempt total (idx + 1) rest
        (stepOk target_dir st filename updated bytes)
      (r.1, Ev.item filename :: (pauses ++ r.2))

/-- One-step unfolding of the loop on an item whose attempt raises. -/
theorem runItemsAux_cons_exc (td : String) (d : Rat) (att : Nat → AttemptResult)
    (total idx : Nat) (f u msg : String) (rest : List (String × String)) (st : LoopState)
    (h : att idx = .exc msg) :
    runItemsAux td d att total idx ((f, u) :: rest) st
      = ((runItemsAux td d att total (idx + 1) rest (stepExc st f msg)).1,
         Ev.item f :: (runItemsAux td d att total (idx + 1) rest (stepExc st f msg)).2) := by
  simp only [runItemsAux, h]

/-- One-step unfolding of the loop on an item whose attempt returns. -/
theorem runItemsAux_cons_ok (td : String) (d : Rat) (att : Nat → AttemptResult)
    (total idx : Nat) (f u : String) (rest : List (String × String)) (st : LoopState)
    (updated : Bool) (bytes : Nat) (h : att idx = .ok updated bytes) :
    runItemsAux td d att total idx ((f, u) :: rest) st
      = ((runItemsAux td d att total (idx + 1) rest (stepOk td st f updated bytes)).1,
         Ev.item f ::
           ((if 0 < d ∧ idx < total - 1 then [Ev.sleep d] else [])
             ++ (runItemsAux td d att total (idx + 1) rest (stepOk td st f updated bytes)).2)) := by
  simp only [runItemsAux, h]

/-- The full download loop over a work list. -/
def runLoop (target_dir : String) (delay : Rat) (attempt : Nat → AttemptResult)
    (items : List (String × String)) : LoopState × List Ev :=
  runItemsAux target_dir delay attempt items.length 0 items initLoopState

/-! ### Vendor A top level (`load_index` and `main`) -/

/-- The bot-protection marker searched for in the fetched index HTML. -/
def verificationMarker : String := "Verifying you are human"

/-- Embedding of `load_index` applied to the received response: an error
status raises `HTTPError` via `raise_for_status`, then a body containing
the verification marker raises `RuntimeError`, else the body is returned. -/
def load_index (status : Nat) (text : String) : Except String String :=
  if statusRaises status then .error "HTTPError"
  else if pyContains text verificationMarker then
    .error "Site returned a human-verification page"
  else .ok text

/-- Environment of one vendor A run: the resolved configuration together
with the external collaborators (cookie file read, index HTTP exchange,
HTML parser, local directories). -/
structure EnvA where
  index_url : String
  target_dir : String
  dirs : List LocalDir
  cookie_file_error : Bool
  index_response : Except String (Nat × String)
  parse_blocks : String → List DownloadBlock

/-- What one vendor A run observably did: the process exit code, whether
catalog parsing was reached, and the download-loop event trace. -/
structure MainOutcome where
  exit_code : Nat
  parsed_catalog : Bool
  events : List Ev

/-- The guarded index fetch of the `try` block of `main`: the network
outcome chained into `load_index` (both exception sources are caught by
the same handler). -/
def fetchedIndex (env : EnvA) : Except String String :=
  match env.index_response with
  | .error e => .error e
  | .ok (status, text) => load_index status text

/-- The link map a run discovers from the fetched index HTML. -/
def linkMapA (env : EnvA) (index_html : String) : List (String × String) :=
  iterate_full_multitrack_links (env.parse_blocks index_html) env.index_url

/-- The work list of a vendor A run as `main` computes it. -/
def workListA (env : EnvA) (index_html : String) (overwrite : Bool) : List (String × String) :=
  (diffA (linkMapA env index_html) (gather_existing_files env.dirs) overwrite).to_process

/-- Embedding of vendor A `main`: cookie-file failure returns 1; a fetch
exception or a `load_index` exception is caught and returns 1 before any
parsing; an empty link map returns 1; an empty work list returns 0 before
the loop; dry-run returns 0; otherwise the loop runs and the exit code is
1 exactly when some item failed. -/
def mainA (env : EnvA) (overwrite dry_run : Bool) (delay : Rat)
    (attempt : Nat → AttemptResult) : MainOutcome :=
  if env.cookie_file_error then ⟨1, false, []⟩
  else
    match fetchedIndex env with
    | .error _ => ⟨1, false, []⟩
    | .ok index_html =>
      let link_map := linkMapA env index_html
      if link_map = [] then ⟨1, true, []⟩
      else
        let d := diffA link_map (gather_existing_files env.dirs) overwrite
        if d.to_process = [] then ⟨0, true, []⟩
        else if dry_run then ⟨0, true, []⟩
        else
          let r := runLoop env.target_dir delay attempt d.to_process
          ⟨if r.1.failed then 1 else 0, true, r.2⟩

/-! ### Vendor B catalog discovery (`fetch_catalog_detail_links`)

The JSON payload of the API call is modelled just deeply enough for the
`isinstance` tests of the source: a payload is a JSON array of items or
something else; an item is a JSON object (with an optional `link` field)
or something else; a `link` value is a JSON string or something else. -/

inductive JVal
  | str (s : String)
  | other
deriving DecidableEq, Repr

inductive JItem
  | dict (link : Option JVal)
  | nondict
deriving DecidableEq, Repr

inductive JData
  | arr (items : List JItem)
  | nonarr
deriving DecidableEq, Repr

/-- The list comprehension over the parsed API payload:
`[item.get("link", "") for item in data if isinstance(item, dict)]`. -/
def apiRawLinks (items : List JItem) : List JVal :=
  items.filterMap (fun it =>
    match it with
    | .dict link => some (link.getD (JVal.str ""))
    | .nondict => none)

/-- The cleanup comprehension:
`[link.rstrip("/") for link in links if isinstance(link, str) and link]`. -/
def apiCleaned (items : List JItem) : List String :=
  (apiRawLinks items).filterMap (fun v =>
    match v with
    | .str s => if s = "" then none else some (pyRstripSlash s)
    | .other => none)

/-- Environment of one catalog discovery: the API exchange (a network,
HTTP-status or JSON-decoding failure collapses to `.error`), and the
listing-page exchange (status plus the hrefs of all anchors). -/
structure TelEnv where
  api_response : Except String JData
  listing_response : Except String (Nat × List String)

/-- The loop body of the anchor scan: resolve the href against the
listing URL, cut the fragment, strip trailing slashes, drop the listing
URL itself, keep the URL only when it contains the `/multitrack/`
segment. -/
def scanCandidate (index_url href : String) : Option String :=
  let full_url := urljoin index_url href
  let normalized := pyRstripSlash (takeBefore '#' full_url)
  if normalized = pyRstripSlash index_url then none
  else if pyContains normalized "/multitrack/" then some normalized
  else none

/-- The anchor scan of the listing page: collect the candidate URLs of
every anchor into a set and return it sorted. -/
def htmlScanUrls (index_url : String) (hrefs : List String) : List String :=
  pySortedSet (hrefs.filterMap (scanCandidate index_url))

/-- The HTML fallback branch of `fetch_catalog_detail_links`: fetch the
listing page (an error propagates out of the function), raise on an error
status, else scan the anchors. -/
def telFallback (env : TelEnv) (index_url : String) : Except String (List String) :=
  match env.listing_response with
  | .error e => .error e
  | .ok (status, hrefs) =>
    if statusRaises status then .error "HTTPError"
    else .ok (htmlScanUrls index_url hrefs)

/-- Embedding of `fetch_catalog_detail_links`: the API attempt returns the
sorted set of cleaned links when the payload is a non-empty JSON array
producing at least one usable link; every other path of the `try` block
(exception, non-array payload, empty array, no usable link) falls through
to the HTML scan, whose own fetch may raise out of the function. -/
def fetch_catalog_detail_links (env : TelEnv) (index_url : String) :
    Except String (List String) :=
  match env.api_response with
  | .error _ => telFallback env index_url
  | .ok JData.nonarr => telFallback env index_url
  | .ok (JData.arr items) =>
    if items = [] then telFallback env index_url
    else
      let cleaned := apiCleaned items
      if cleaned = [] then telFallback env index_url
      else .ok (pySortedSet cleaned)

/-! ### Vendor B detail pages (`extract_download_info`) and entry loop -/

/-- One anchor of a detail page: its visible text and its href. -/
structure Anchor where
  text : String
  href : String
deriving DecidableEq, Repr

/-- The anchor scan of `extract_download_info`: the first anchor whose
stripped lower-cased text contains the call-to-action phrase and whose
href yields a truthy filename wins; anchors matching the phrase but
yielding no filename are passed over (the source only returns inside
`if filename`). -/
def findDownloadAnchor (detail_url : String) : List Anchor → Option (String × String)
  | [] => none
  | a :: rest =>
    if pyContains (pyLower (pyStrip a.text)) "download audio files" then
      let download_url := urljoin detail_url a.href
      match infer_filename download_url with
      | some filename =>
        if filename = "" then findDownloadAnchor detail_url rest
        else some (filename, download_url)
      | none => findDownloadAnchor detail_url rest
    else findDownloadAnchor detail_url rest

/-- Embedding of `extract_download_info` applied to the fetched detail
page (its anchors): no matching anchor raises `RuntimeError`. -/
def extract_download_info (detail_url : String) (anchors : List Anchor) :
    Except String (String × String) :=
  match findDownloadAnchor detail_url anchors with
  | some r => .ok r
  | none => .error ("No download link found on detail page: " ++ detail_url)

/-- Embedding of the vendor B entry loop (`main` lines 259-277): each
detail link is fetched and scanned; a per-link exception is reported and
skipped, every successful extraction appends one entry, in link order. -/
def buildEntries (pages : String → List Anchor) : List String → List EntryB
  | [] => []
  | link :: rest =>
    match extract_download_info link (pages link) with
    | .error _ => buildEntries pages rest
    | .ok (filename, download_url) => (filename, download_url, link) :: buildEntries pages rest

/-! ### Shared lemmas about the download loop -/

/-- The result rows of the loop tail are the rows of the remaining items,
each determined solely by its own index and attempt outcome. -/
theorem runItemsAux_results (td : String) (d : Rat) (att : Nat → AttemptResult) (total : Nat) :
    ∀ (items : List (String × String)) (idx : Nat) (st : LoopState),
      (runItemsAux td d att total idx items st).1.results
        = st.results ++ (items.enumFrom idx).map (fun p => rowFor td p.2.1 (att p.1)) := by
  intro items
  induction items with
  | nil => intro idx st; simp [runItemsAux]
  | cons hd tl ih =>
    intro idx st
    obtain ⟨filename, url⟩ := hd
    cases h : att idx with
    | exc msg =>
      rw [runItemsAux_cons_exc td d att total idx filename url msg tl st h]
      simp [ih, stepExc, rowFor, h]
    | ok updated bytes =>
      rw [runItemsAux_cons_ok td d att total idx filename url tl st updated bytes h]
      cases updated <;> simp [ih, stepOk, rowFor, h]

/-- The failed flag of the loop tail is the disjunction of the incoming
flag with the exception indicators of the remaining attempts. -/
theorem runItemsAux_failed (td : String) (d : Rat) (att : Nat → AttemptResult) (total : Nat) :
    ∀ (items : List (String × String)) (idx : Nat) (st : LoopState),
      (runItemsAux td d att total idx items st).1.failed
        = (st.failed || (items.enumFrom idx).any (fun p => isExc (att p.1))) := by
  intro items
  induction items with
  | nil => intro idx st; simp [runItemsAux]
  | cons hd tl ih =>
    intro idx st
    obtain ⟨filename, url⟩ := hd
    cases h : att idx with
    | exc msg =>
      rw [runItemsAux_cons_exc td d att total idx filename url msg tl st h]
      simp [ih, stepExc, isExc, h]
    | ok updated bytes =>
      rw [runItemsAux_cons_ok td d att total idx filename url tl st updated bytes h]
      cases updated <;> simp [ih, stepOk, isExc, h, Bool.or_assoc]

/-- With a positive delay and no exception among the remaining attempts,
the event trace of the loop tail is the item events separated by single
sleep events. -/
theorem runItemsAux_events_pos (td : String) (d : Rat) (att : Nat → AttemptResult)
    (total : Nat) (hpos : 0 < d) :
    ∀ (items : List (String × String)) (idx : Nat) (st : LoopState),
      idx + items.length = total →
      (∀ i, idx ≤ i → i < total → isExc (att i) = false) →
      (runItemsAux td d att total idx items st).2
        = List.intersperse (Ev.sleep d) (items.map (fun p => Ev.item p.1)) := by
  intro items
  induction items with
  | nil => intro idx st _ _; simp [runItemsAux]
  | cons hd0 tl ih =>
    intro idx st hlen hok
    obtain ⟨filename, url⟩ := hd0
    have hidx : idx < total := by simp at hlen; omega
    have hne : isExc (att idx) = false := hok idx (Nat.le_refl idx) hidx
    cases h : att idx with
    | exc msg => rw [h] at hne; simp [isExc] at hne
    | ok updated bytes =>
      have hlen1 : idx + 1 + tl.length = total := by simp at hlen; omega
      have hok1 : ∀ i, idx + 1 ≤ i → i < total → isExc (att i) = false :=
        fun i h1 h2 => hok i (by omega) h2
      rw [runItemsAux_cons_ok td d att total idx filename url tl st updated bytes h]
      cases tl with
      | nil =>
        have hlast : ¬ (idx < total - 1) := by simp at hlen; omega
        simp [runItemsAux, hlast]
      | cons hd1 tl1 =>
        have hmore : idx < total - 1 := by simp at hlen; omega
        rw [ih _ _ hlen1 hok1]
        simp [hpos, hmore]

/-- With a non-positive delay the event trace holds no sleep events at
all, whatever the attempts do. -/
theorem runItemsAux_events_nonpos (td : String) (d : Rat) (att : Nat → AttemptResult)
    (total : Nat) (hnp : ¬ 0 < d) :
    ∀ (items : List (String × String)) (idx : Nat) (st : LoopState),
      (runItemsAux td d att total idx items st).2
        = items.map (fun p => Ev.item p.1) := by
  intro items
  induction items with
  | nil => intro idx st; simp [runItemsAux]
  | cons hd0 tl ih =>
    intro idx st
    obtain ⟨filename, url⟩ := hd0
    cases h : att idx with
    | exc msg =>
      rw [runItemsAux_cons_exc td d att total idx filename url msg tl st h]
      simp [ih]
    | ok updated bytes =>
      rw [runItemsAux_cons_ok td d att total idx filename url tl st updated bytes h]
      simp [hnp, ih]

/-- Interspersed sleep separators number one fewer than the items. -/
theorem countP_intersperse_sleep (d : Rat) :
    ∀ (l : List (String × String)),
      (List.intersperse (Ev.sleep d) (l.map (fun p => Ev.item p.1))).countP isSleepEv
        = l.length - 1 := by
  intro l
  induction l with
  | nil => simp
  | cons hd0 tl ih =>
    cases tl with
    | nil => simp [List.countP_cons, isSleepEv]
    | cons hd1 tl1 =>
      simp only [List.map_cons, List.intersperse_cons₂, List.countP_cons] at ih ⊢
      simp [isSleepEv] at ih ⊢
      omega

/-- The rows of a full loop run: one row per work item, each a function of
that item and its own attempt outcome alone. -/
theorem runLoop_results (td : String) (d : Rat) (att : Nat → AttemptResult)
    (items : List (String × String)) :
    (runLoop td d att items).1.results
      = items.enum.map (fun p => rowFor td p.2.1 (att p.1)) := by
  simpa [runLoop, initLoopState] using
    runItemsAux_results td d att items.length items 0 initLoopState

/-- The failure flag of a full loop run is the existence of a raising
attempt among the work items. -/
theorem runLoop_failed (td : String) (d : Rat) (att : Nat → AttemptResult)
    (items : List (String × String)) :
    (runLoop td d att items).1.failed
      = items.enum.any (fun p => isExc (att p.1)) := by
  simpa [runLoop, initLoopState] using
    runItemsAux_failed td d att items.length items 0 initLoopState

/-! ### Order and sorting lemmas for the Python sorted model -/

/-- The code-point order is total. -/
theorem charListLe_total : ∀ as bs, charListLe as bs = true ∨ charListLe bs as = true := by
  intro as
  induction as with
  | nil => intro bs; left; rfl
  | cons a as ih =>
    intro bs
    cases bs with
    | nil => right; rfl
    | cons b bs =>
      by_cases h1 : a.toNat < b.toNat
      · left; simp [charListLe, h1]
      · by_cases h2 : b.toNat < a.toNat
        · right; simp [charListLe, h1, h2]
        · rcases ih bs with h | h
          · left; simp [charListLe, h1, h2, h]
          · right; simp [charListLe, h1, h2, h]

/-- The code-point order is transitive. -/
theorem charListLe_trans : ∀ as bs cs, charListLe as bs = true → charListLe bs cs = true →
    charListLe as cs = true := by
  intro as
  induction as with
  | nil => intro bs cs h1 h2; rfl
  | cons a as ih =>
    intro bs cs h1 h2
    cases bs with
    | nil => simp [charListLe] at h1
    | cons b bs =>
      cases cs with
      | nil => simp [charListLe] at h2
      | cons c cs =>
        simp only [charListLe] at h1 h2 ⊢
        by_cases hab : a.toNat < b.toNat
        · by_cases hbc : b.toNat < c.toNat
          · simp [show a.toNat < c.toNat by omega]
          · by_cases hcb : c.toNat < b.toNat
            · simp [hbc, hcb] at h2
            · simp [show a.toNat < c.toNat by omega]
        · by_cases hba : b.toNat < a.toNat
          · simp [hab, hba] at h1
          · by_cases hbc : b.toNat < c.toNat
            · simp [show a.toNat < c.toNat by omega]
            · by_cases hcb : c.toNat < b.toNat
              · simp [hbc, hcb] at h2
              · have hac1 : ¬ a.toNat < c.toNat := by omega
                have hac2 : ¬ c.toNat < a.toNat := by omega
                simp [hab, hba] at h1
                simp [hbc, hcb] at h2
                simp [hac1, hac2]
                exact ih bs cs h1 h2

/-- Totality at string level. -/
theorem pyStrLe_total (a b : String) : pyStrLe a b = true ∨ pyStrLe b a = true :=
  charListLe_total a.data b.data

/-- Transitivity at string level. -/
theorem pyStrLe_trans {a b c : String} (h1 : pyStrLe a b = true) (h2 : pyStrLe b c = true) :
    pyStrLe a c = true :=
  charListLe_trans a.data b.data c.data h1 h2

/-- Membership through ordered insertion. -/
theorem mem_insertSorted (x a : String) : ∀ l : List String,
    (a ∈ insertSorted x l ↔ a = x ∨ a ∈ l) := by
  intro l
  induction l with
  | nil => simp [insertSorted]
  | cons y ys ih =>
    by_cases h : pyStrLe x y = true
    · simp [insertSorted, h, List.mem_cons]
    · simp [insertSorted, h, List.mem_cons, ih]
      tauto

/-- Ordered insertion permutes a cons. -/
theorem perm_insertSorted (x : String) : ∀ l : List String,
    (insertSorted x l).Perm (x :: l) := by
  intro l
  induction l with
  | nil => simp [insertSorted]
  | cons y ys ih =>
    by_cases h : pyStrLe x y = true
    · simp [insertSorted, h]
    · simp only [insertSorted, h, if_false]
      exact (ih.cons y).trans (List.Perm.swap x y ys)

/-- Ordered insertion preserves sortedness. -/
theorem pairwise_insertSorted (x : String) : ∀ l : List String,
    l.Pairwise (fun a b => pyStrLe a b = true) →
    (insertSorted x l).Pairwise (fun a b => pyStrLe a b = true) := by
  intro l
  induction l with
  | nil => intro _; simp [insertSorted]
  | cons y ys ih =>
    intro h
    rcases List.pairwise_cons.mp h with ⟨hy, hys⟩
    by_cases hxy : pyStrLe x y = true
    · have : (insertSorted x (y :: ys)) = x :: y :: ys := by simp [insertSorted, hxy]
      rw [this]
      refine List.pairwise_cons.mpr ⟨?_, h⟩
      intro b hb
      rcases List.mem_cons.mp hb with rfl | hb
      · exact hxy
      · exact pyStrLe_trans hxy (hy b hb)
    · have : (insertSorted x (y :: ys)) = y :: insertSorted x ys := by simp [insertSorted, hxy]
      rw [this]
      refine List.pairwise_cons.mpr ⟨?_, ih hys⟩
      intro b hb
      rcases (mem_insertSorted x b ys).mp hb with rfl | hb
      · rcases pyStrLe_total b y with h1 | h1
        · exact absurd h1 hxy
        · exact h1
      · exact hy b hb

/-- The Python sorted model permutes its input. -/
theorem perm_pySorted : ∀ l : List String, (pySorted l).Perm l := by
  intro l
  induction l with
  | nil => simp [pySorted]
  | cons x xs ih =>
    have : pySorted (x :: xs) = insertSorted x (pySorted xs) := rfl
    rw [this]
    exact (perm_insertSorted x (pySorted xs)).trans (ih.cons x)

/-- The Python sorted model yields an ascending list. -/
theorem sorted_pySorted : ∀ l : List String,
    (pySorted l).Pairwise (fun a b => pyStrLe a b = true) := by
  intro l
  induction l with
  | nil => simp [pySorted]
  | cons x xs ih => exact pairwise_insertSorted x (pySorted xs) ih

/-- The sorted set model holds no duplicates. -/
theorem nodup_pySortedSet (l : List String) : (pySortedSet l).Nodup :=
  ((perm_pySorted l.dedup).nodup_iff).mpr (List.nodup_dedup l)

/-- The sorted set model holds exactly the elements of its input. -/
theorem mem_pySortedSet (a : String) (l : List String) : a ∈ pySortedSet l ↔ a ∈ l := by
  rw [pySortedSet, (perm_pySorted l.dedup).mem_iff, List.mem_dedup]

/-- The sorted set model is ascending. -/
theorem sorted_pySortedSet (l : List String) :
    (pySortedSet l).Pairwise (fun a b => pyStrLe a b = true) :=
  sorted_pySorted l.dedup

/-! ### Claim theorems -/

/-- C1: with catalog a.zip, b.zip, c.zip and an inventory holding a.zip,
the diff without overwrite yields exactly the work list b.zip, c.zip in
catalog order with one present and two missing; with overwrite the work
list is the whole catalog; and an inventory file named Song.zip matches
the catalog filename song.zip, so that entry is present and not queued. -/
theorem c1_diff_engine :
    diffA [("a.zip", "ua"), ("b.zip", "ub"), ("c.zip", "uc")]
        (gather_existing_files [⟨true, [⟨"a.zip", true⟩]⟩]) false
      = ⟨1, [("b.zip", "ub"), ("c.zip", "uc")], 2⟩
    ∧ (diffA [("a.zip", "ua"), ("b.zip", "ub"), ("c.zip", "uc")]
        (gather_existing_files [⟨true, [⟨"a.zip", true⟩]⟩]) true).to_process
      = [("a.zip", "ua"), ("b.zip", "ub"), ("c.zip", "uc")]
    ∧ diffA [("song.zip", "us")]
        (gather_existing_files [⟨true, [⟨"Song.zip", true⟩]⟩]) false
      = ⟨1, [], 0⟩ := by
  refine ⟨?_, ?_, ?_⟩ <;> decide

/-- C2: when the destination already exists and overwrite is off,
`download_with_progress` returns `(False, 0)` without touching the
filesystem and without issuing any GET, and the loop records such a
return as a Skipped row. -/
theorem c2_skip_before_get (fs : Fs) (net : String → HttpResponse) (url destination : String)
    (hex : fsExists fs destination = true) :
    download_with_progress fs net url destination false
      = ⟨.ok (false, 0), fs, []⟩
    ∧ ∀ target_dir filename bytes,
        rowFor target_dir filename (.ok false bytes)
          = (filename, "[yellow]Skipped[/]", target_dir ++ "/" ++ filename) := by
  constructor
  · simp [download_with_progress, hex]
  · intro target_dir filename bytes
    rfl

/-- Witness for C2 at a concrete state: the destination a.zip exists, and
the call returns the skip result with no GET recorded. -/
theorem c2_skip_before_get_witness :
    fsExists [("a.zip", [7])] "a.zip" = true
    ∧ (download_with_progress [("a.zip", [7])] (fun _ => ⟨200, [[1]], none⟩) "u" "a.zip" false
        = ⟨.ok (false, 0), [("a.zip", [7])], []⟩
      ∧ ∀ target_dir filename bytes,
          rowFor target_dir filename (.ok false bytes)
            = (filename, "[yellow]Skipped[/]", target_dir ++ "/" ++ filename)) :=
  ⟨by rfl, c2_skip_before_get [("a.zip", [7])] (fun _ => ⟨200, [[1]], none⟩) "u" "a.zip" (by rfl)⟩

/-- C3 counterexample: two download blocks whose filenames agree only up
to letter case produce two distinct catalog entries, not the single
lower-cased-key entry the claim asserts — the vendor A map keys on the
exact filename. -/
theorem c3_counterexample :
    iterate_full_multitrack_links
        [⟨some "Full Multitrack", some "https://d.com/Song.zip", none⟩,
         ⟨some "Full Multitrack", some "https://e.com/song.zip", none⟩]
        "https://c.mt/"
      = [("Song.zip", "https://d.com/Song.zip"), ("song.zip", "https://e.com/song.zip")]
    ∧ pyLower "Song.zip" = pyLower "song.zip"
    ∧ ("Song.zip" : String) ≠ "song.zip"
    ∧ (iterate_full_multitrack_links
        [⟨some "Full Multitrack", some "https://d.com/Song.zip", none⟩,
         ⟨some "Full Multitrack", some "https://e.com/song.zip", none⟩]
        "https://c.mt/").length ≠ 1 := by
  refine ⟨by decide, by decide, by decide, by decide⟩

/-- C3 amended: vendor A deduplicates on the exact, case-sensitive
filename with the first-seen URL winning (two blocks yielding the same
exact filename give one entry holding the first URL), while vendor B
keeps one entry per successfully scanned detail page with no
filename-based deduplication (two detail pages yielding the same filename
give two entries). -/
theorem c3_amended (base k u1 u2 : String) (b1 b2 : DownloadBlock)
    (h1 : blockCandidate base b1 = some (k, u1))
    (h2 : blockCandidate base b2 = some (k, u2))
    (pages : String → List Anchor) (l1 l2 f v1 v2 : String)
    (g1 : extract_download_info l1 (pages l1) = .ok (f, v1))
    (g2 : extract_download_info l2 (pages l2) = .ok (f, v2)) :
    iterate_full_multitrack_links [b1, b2] base = [(k, u1)]
    ∧ buildEntries pages [l1, l2] = [(f, v1, l1), (f, v2, l2)] := by
  constructor
  · simp [iterate_full_multitrack_links, h1, h2, setdefault]
  · simp [buildEntries, g1, g2]

/-- Witness for C3 amended: two blocks both naming x.zip keep the first
URL; two detail pages both naming x.zip yield two entries. -/
theorem c3_amended_witness :
    blockCandidate "https://c.mt/"
        ⟨some "Full Multitrack", some "https://d.com/x.zip", none⟩
      = some ("x.zip", "https://d.com/x.zip")
    ∧ blockCandidate "https://c.mt/"
        ⟨some "full multitrack", some "https://e.com/x.zip", none⟩
      = some ("x.zip", "https://e.com/x.zip")
    ∧ extract_download_info "https://t.com/multitrack/p1"
        [⟨"Download Audio Files", "https://d.com/x.zip"⟩] = .ok ("x.zip", "https://d.com/x.zip")
    ∧ extract_download_info "https://t.com/multitrack/p2"
        [⟨"Download Audio Files", "https://e.com/x.zip"⟩] = .ok ("x.zip", "https://e.com/x.zip")
    ∧ (iterate_full_multitrack_links
        [⟨some "Full Multitrack", some "https://d.com/x.zip", none⟩,
         ⟨some "full multitrack", some "https://e.com/x.zip", none⟩] "https://c.mt/"
        = [("x.zip", "https://d.com/x.zip")]
      ∧ buildEntries
          (fun l => if l = "https://t.com/multitrack/p1"
            then [⟨"Download Audio Files", "https://d.com/x.zip"⟩]
            else [⟨"Download Audio Files", "https://e.com/x.zip"⟩])
          ["https://t.com/multitrack/p1", "https://t.com/multitrack/p2"]
        = [("x.zip", "https://d.com/x.zip", "https://t.com/multitrack/p1"),
           ("x.zip", "https://e.com/x.zip", "https://t.com/multitrack/p2")]) :=
  ⟨by decide, by decide, by rfl, by rfl,
    c3_amended "https://c.mt/" "x.zip" "https://d.com/x.zip" "https://e.com/x.zip"
      ⟨some "Full Multitrack", some "https://d.com/x.zip", none⟩
      ⟨some "full multitrack", some "https://e.com/x.zip", none⟩
      (by decide) (by decide)
      (fun l => if l = "https://t.com/multitrack/p1"
        then [⟨"Download Audio Files", "https://d.com/x.zip"⟩]
        else [⟨"Download Audio Files", "https://e.com/x.zip"⟩])
      "https://t.com/multitrack/p1" "https://t.com/multitrack/p2"
      "x.zip" "https://d.com/x.zip" "https://e.com/x.zip"
      (by rfl) (by rfl)⟩

/-- C4: one item's failure never aborts the batch — the loop produces one
result row per work item, each row a function of that item and its own
attempt outcome only (so a failing item is recorded as Failed and every
other item still gets its own row); and on the vendor B side a detail
page with no download anchor is skipped while the surrounding pages still
contribute their entries. -/
theorem c4_failure_isolation (td : String) (d : Rat) (att : Nat → AttemptResult)
    (items : List (String × String)) (pages : String → List Anchor)
    (l1 l2 l3 f1 u1 f3 u3 : String)
    (h1 : extract_download_info l1 (pages l1) = .ok (f1, u1))
    (h2 : findDownloadAnchor l2 (pages l2) = none)
    (h3 : extract_download_info l3 (pages l3) = .ok (f3, u3)) :
    (runLoop td d att items).1.results
        = items.enum.map (fun p => rowFor td p.2.1 (att p.1))
    ∧ (runLoop td d att items).1.results.length = items.length
    ∧ buildEntries pages [l1, l2, l3] = [(f1, u1, l1), (f3, u3, l3)] := by
  have h2e : extract_download_info l2 (pages l2)
      = .error ("No download link found on detail page: " ++ l2) := by
    simp [extract_download_info, h2]
  refine ⟨runLoop_results td d att items, ?_, ?_⟩
  · rw [runLoop_results td d att items]
    simp
  · simp [buildEntries, h1, h2e, h3]

/-- Witness for C4: three items where the middle attempt raises — all
three rows are present, the middle one Failed; and three detail pages
where the middle page lacks the anchor — two entries remain. -/
theorem c4_failure_isolation_witness :
    extract_download_info "p1" [⟨"Download Audio Files", "https://d.com/a.zip"⟩]
      = .ok ("a.zip", "https://d.com/a.zip")
    ∧ findDownloadAnchor "p2" [] = none
    ∧ extract_download_info "p3" [⟨"Download Audio Files", "https://d.com/c.zip"⟩]
      = .ok ("c.zip", "https://d.com/c.zip")
    ∧ ((runLoop "t" 1 (fun i => if i = 1 then .exc "connection reset" else .ok true 4)
          [("a.zip", "ua"), ("b.zip", "ub"), ("c.zip", "uc")]).1.results
        = [(0, ("a.zip", "ua")), (1, ("b.zip", "ub")), (2, ("c.zip", "uc"))].map
            (fun p => rowFor "t" p.2.1
              (if p.1 = 1 then .exc "connection reset" else .ok true 4))
      ∧ (runLoop "t" 1 (fun i => if i = 1 then .exc "connection reset" else .ok true 4)
          [("a.zip", "ua"), ("b.zip", "ub"), ("c.zip", "uc")]).1.results.length = 3
      ∧ buildEntries
          (fun l => if l = "p2" then []
            else if l = "p1" then [⟨"Download Audio Files", "https://d.com/a.zip"⟩]
            else [⟨"Download Audio Files", "https://d.com/c.zip"⟩])
          ["p1", "p2", "p3"]
        = [("a.zip", "https://d.com/a.zip", "p1"), ("c.zip", "https://d.com/c.zip", "p3")]) :=
  ⟨by rfl, by decide, by rfl,
    c4_failure_isolation "t" 1 (fun i => if i = 1 then .exc "connection reset" else .ok true 4)
      [("a.zip", "ua"), ("b.zip", "ub"), ("c.zip", "uc")]
      (fun l => if l = "p2" then []
        else if l = "p1" then [⟨"Download Audio Files", "https://d.com/a.zip"⟩]
        else [⟨"Download Audio Files", "https://d.com/c.zip"⟩])
      "p1" "p2" "p3" "a.zip" "https://d.com/a.zip" "c.zip" "https://d.com/c.zip"
      (by rfl) (by decide) (by rfl)⟩

/-- C5: the process exit code is 0 on full success or when nothing is
left to download, and 1 when the index fetch fails fatally or when any
work item failed. -/
theorem c5_exit_codes (env : EnvA) (ow dr : Bool) (d : Rat) (att : Nat → AttemptResult) :
    (∀ e, fetchedIndex env = .error e → (mainA env ow dr d att).exit_code = 1)
    ∧ (∀ html, env.cookie_file_error = false → fetchedIndex env = .ok html →
        linkMapA env html ≠ [] → workListA env html ow = [] →
        (mainA env ow dr d att).exit_code = 0)
    ∧ (∀ html, env.cookie_file_error = false → fetchedIndex env = .ok html →
        linkMapA env html ≠ [] → dr = false →
        (workListA env html ow).enum.any (fun p => isExc (att p.1)) = true →
        (mainA env ow dr d att).exit_code = 1)
    ∧ (∀ html, env.cookie_file_error = false → fetchedIndex env = .ok html →
        linkMapA env html ≠ [] → dr = false →
        (workListA env html ow).enum.any (fun p => isExc (att p.1)) = false →
        (mainA env ow dr d att).exit_code = 0) := by
  refine ⟨?_, ?_, ?_, ?_⟩
  · intro e he
    cases hc : env.cookie_file_error <;> simp [mainA, hc, he]
  · intro html hc hf hlm hwl
    simp only [mainA, hc, Bool.false_eq_true, if_false, hf]
    rw [show (diffA (linkMapA env html) (gather_existing_files env.dirs) ow).to_process
        = workListA env html ow from rfl]
    simp [hlm, hwl]
  · intro html hc hf hlm hdr hany
    have hwl : workListA env html ow ≠ [] := by
      intro h
      rw [h] at hany
      simp at hany
    simp only [mainA, hc, Bool.false_eq_true, if_false, hf]
    rw [show (diffA (linkMapA env html) (gather_existing_files env.dirs) ow).to_process
        = workListA env html ow from rfl]
    simp [hlm, hwl, hdr, runLoop_failed, hany]
  · intro html hc hf hlm hdr hany
    by_cases hwl : workListA env html ow = []
    · simp only [mainA, hc, Bool.false_eq_true, if_false, hf]
      rw [show (diffA (linkMapA env html) (gather_existing_files env.dirs) ow).to_process
          = workListA env html ow from rfl]
      simp [hlm, hwl]
    · simp only [mainA, hc, Bool.false_eq_true, if_false, hf]
      rw [show (diffA (linkMapA env html) (gather_existing_files env.dirs) ow).to_process
          = workListA env html ow from rfl]
      simp [hlm, hwl, hdr, runLoop_failed, hany]

/-- Witness for C5: a fatal fetch gives exit 1, a no-op run gives exit 0,
a run whose single item fails gives exit 1, a fully successful run gives
exit 0. -/
theorem c5_exit_codes_witness :
    (mainA ⟨"https://c.mt/", "t", [], false, .error "connection refused", fun _ => []⟩
        false false 1 (fun _ => .ok true 1)).exit_code = 1
    ∧ (mainA ⟨"https://c.mt/", "t", [⟨true, [⟨"a.zip", true⟩]⟩], false, .ok (200, "page"),
          fun _ => [⟨some "Full Multitrack", some "https://d.com/a.zip", none⟩]⟩
        false false 1 (fun _ => .ok true 1)).exit_code = 0
    ∧ (mainA ⟨"https://c.mt/", "t", [], false, .ok (200, "page"),
          fun _ => [⟨some "Full Multitrack", some "https://d.com/a.zip", none⟩]⟩
        false false 1 (fun _ => .exc "connection reset")).exit_code = 1
    ∧ (mainA ⟨"https://c.mt/", "t", [], false, .ok (200, "page"),
          fun _ => [⟨some "Full Multitrack", some "https://d.com/a.zip", none⟩]⟩
        false false 1 (fun _ => .ok true 1)).exit_code = 0 :=
  ⟨(c5_exit_codes _ false false 1 _).1 "connection refused" rfl,
   (c5_exit_codes _ false false 1 _).2.1 "page" rfl rfl (by decide) (by decide),
   (c5_exit_codes _ false false 1 _).2.2.1 "page" rfl rfl (by decide) rfl (by decide),
   (c5_exit_codes _ false false 1 _).2.2.2 "page" rfl rfl (by decide) rfl (by decide)⟩

/-- C6: whenever the index response carries an HTTP error status or its
body contains the verification-challenge marker, `load_index` raises, the
run exits with code 1, no catalog parsing is reached and no download
events occur. -/
theorem c6_fatal_index (env : EnvA) (ow dr : Bool) (d : Rat) (att : Nat → AttemptResult)
    (status : Nat) (text : String)
    (hresp : env.index_response = .ok (status, text))
    (hbad : statusRaises status = true ∨ pyContains text verificationMarker = true) :
    (∃ e, load_index status text = .error e)
    ∧ (mainA env ow dr d att).exit_code = 1
    ∧ (mainA env ow dr d att).parsed_catalog = false
    ∧ (mainA env ow dr d att).events = [] := by
  have herr : ∃ e, load_index status text = .error e := by
    rcases hbad with hb | hb
    · exact ⟨"HTTPError", by simp [load_index, hb]⟩
    · by_cases hs : statusRaises status = true
      · exact ⟨"HTTPError", by simp [load_index, hs]⟩
      · exact ⟨"Site returned a human-verification page", by
          simp [load_index, hs, hb]⟩
  obtain ⟨e, he⟩ := herr
  have hfetch : fetchedIndex env = .error e := by simp [fetchedIndex, hresp, he]
  refine ⟨⟨e, he⟩, ?_, ?_, ?_⟩ <;>
    cases hc : env.cookie_file_error <;> simp [mainA, hc, hfetch]

/-- Witness for C6: a response whose body is the verification marker
itself ends the run with exit 1 before any parsing or downloading. -/
theorem c6_fatal_index_witness :
    (⟨"https://c.mt/", "t", [], false, .ok (200, "Verifying you are human"),
        fun _ => [⟨some "Full Multitrack", some "https://d.com/a.zip", none⟩]⟩ : EnvA).index_response
      = .ok (200, "Verifying you are human")
    ∧ (statusRaises 200 = true ∨ pyContains "Verifying you are human" verificationMarker = true)
    ∧ ((∃ e, load_index 200 "Verifying you are human" = .error e)
      ∧ (mainA ⟨"https://c.mt/", "t", [], false, .ok (200, "Verifying you are human"),
            fun _ => [⟨some "Full Multitrack", some "https://d.com/a.zip", none⟩]⟩
          false false 1 (fun _ => .ok true 1)).exit_code = 1
      ∧ (mainA ⟨"https://c.mt/", "t", [], false, .ok (200, "Verifying you are human"),
            fun _ => [⟨some "Full Multitrack", some "https://d.com/a.zip", none⟩]⟩
          false false 1 (fun _ => .ok true 1)).parsed_catalog = false
      ∧ (mainA ⟨"https://c.mt/", "t", [], false, .ok (200, "Verifying you are human"),
            fun _ => [⟨some "Full Multitrack", some "https://d.com/a.zip", none⟩]⟩
          false false 1 (fun _ => .ok true 1)).events = []) :=
  ⟨rfl, Or.inr (by decide),
    c6_fatal_index _ false false 1 _ 200 "Verifying you are human" rfl (Or.inr (by decide))⟩

/-- A decidable property and its negation partition a list. -/
theorem length_filter_compl {α : Type} (p : α → Prop) [DecidablePred p] (l : List α) :
    (l.filter (fun a => decide (p a))).length + (l.filter (fun a => decide ¬ p a)).length
      = l.length := by
  induction l with
  | nil => rfl
  | cons a t ih =>
    by_cases h : p a <;> simp [List.filter_cons, h, decide_not] at ih ⊢ <;> omega

/-- Filtering a mapped list counts the same elements as filtering the
original under the composed property. -/
theorem length_filter_map_comm {α β : Type} (f : α → β) (p : β → Prop) [DecidablePred p]
    (l : List α) :
    ((l.map f).filter (fun b => decide (p b))).length
      = (l.filter (fun a => decide (p (f a)))).length := by
  induction l with
  | nil => rfl
  | cons a t ih => by_cases h : p (f a) <;> simp [List.filter_cons, h, ih]

/-- C7 counterexample: a catalog whose two discovered entries differ only
in filename case, with one variant on disk, has present_count 1 and
missing_count 0 without overwrite, while the catalog holds 2 entries; the
sum misses the total because present_count counts the deduplicated
lower-cased name set. -/
theorem c7_counterexample :
    (iterate_full_multitrack_links
        [⟨some "Full Multitrack", some "https://d.com/A.zip", none⟩,
         ⟨some "Full Multitrack", some "https://e.com/a.zip", none⟩] "https://c.mt/").length = 2
    ∧ (diffA (iterate_full_multitrack_links
        [⟨some "Full Multitrack", some "https://d.com/A.zip", none⟩,
         ⟨some "Full Multitrack", some "https://e.com/a.zip", none⟩] "https://c.mt/")
        (gather_existing_files [⟨true, [⟨"a.zip", true⟩]⟩]) false).present_count = 1
    ∧ (diffA (iterate_full_multitrack_links
        [⟨some "Full Multitrack", some "https://d.com/A.zip", none⟩,
         ⟨some "Full Multitrack", some "https://e.com/a.zip", none⟩] "https://c.mt/")
        (gather_existing_files [⟨true, [⟨"a.zip", true⟩]⟩]) false).missing_count = 0
    ∧ 1 + 0 ≠ 2 := by
  refine ⟨by decide, by decide, by decide, by decide⟩

/-- C7 amended: without overwrite, present_count plus missing_count
equals the number of discovered entries for vendor B always, and for
vendor A whenever the lower-cased catalog filenames are pairwise distinct
(the counterexample shows the vendor A equality fails otherwise); under
overwrite the sum can exceed the total, as the concrete one-entry example
shows. -/
theorem c7_amended (link_map : List (String × String)) (entries : List EntryB)
    (existing : List String)
    (hnodup : (link_map.map (fun p => pyLower p.1)).Nodup) :
    (diffA link_map existing false).present_count
        + (diffA link_map existing false).missing_count = link_map.length
    ∧ (diffB entries existing false).present_count
        + (diffB entries existing false).missing_count = entries.length
    ∧ (diffA [("a.zip", "u")] ["a.zip"] true).present_count
        + (diffA [("a.zip", "u")] ["a.zip"] true).missing_count ≠ 1 := by
  refine ⟨?_, ?_, by decide⟩
  · simp only [diffA]
    rw [List.dedup_eq_self.mpr hnodup]
    rw [length_filter_map_comm (fun e : String × String => pyLower e.1) (fun n => n ∈ existing)]
    rw [show link_map.filter (fun a : String × String => decide ¬(pyLower a.1 ∈ existing ∧ True))
        = link_map.filter (fun a : String × String => decide ¬(pyLower a.1 ∈ existing)) from by
      simp]
    exact length_filter_compl (fun a : String × String => pyLower a.1 ∈ existing) link_map
  · simp only [diffB]
    rw [show entries.filter (fun a : EntryB => decide ¬(pyLower a.1 ∈ existing ∧ True))
        = entries.filter (fun a : EntryB => decide ¬(pyLower a.1 ∈ existing)) from by simp]
    exact length_filter_compl (fun e : EntryB => pyLower e.1 ∈ existing) entries

/-- Witness for C7 amended at a concrete catalog with distinct lower-cased
names. -/
theorem c7_amended_witness :
    ((([("a.zip", "ua"), ("b.zip", "ub")] : List (String × String)).map
        (fun p => pyLower p.1)).Nodup)
    ∧ ((diffA [("a.zip", "ua"), ("b.zip", "ub")] ["a.zip"] false).present_count
        + (diffA [("a.zip", "ua"), ("b.zip", "ub")] ["a.zip"] false).missing_count = 2
      ∧ (diffB [("x.zip", "ux", "lx")] ["a.zip"] false).present_count
        + (diffB [("x.zip", "ux", "lx")] ["a.zip"] false).missing_count = 1
      ∧ (diffA [("a.zip", "u")] ["a.zip"] true).present_count
        + (diffA [("a.zip", "u")] ["a.zip"] true).missing_count ≠ 1) :=
  ⟨by decide,
    c7_amended [("a.zip", "ua"), ("b.zip", "ub")] [("x.zip", "ux", "lx")] ["a.zip"] (by decide)⟩

/-- C8 counterexample: an API payload that parses as a non-empty JSON
list whose single item lacks a link field does not make the function
return the (empty) deduplicated API link list — it falls through to the
HTML scan and returns the anchor-derived URL instead. -/
theorem c8_counterexample :
    (⟨.ok (JData.arr [JItem.dict none]), .ok (200, ["https://t.com/multitrack/x/"])⟩
        : TelEnv).api_response = .ok (JData.arr [JItem.dict none])
    ∧ ([JItem.dict none] : List JItem) ≠ []
    ∧ pySortedSet (apiCleaned [JItem.dict none]) = []
    ∧ fetch_catalog_detail_links
        ⟨.ok (JData.arr [JItem.dict none]), .ok (200, ["https://t.com/multitrack/x/"])⟩
        "https://t.com/multitracks/"
      = .ok ["https://t.com/multitrack/x"]
    ∧ (.ok ["https://t.com/multitrack/x"] : Except String (List String))
      ≠ .ok (pySortedSet (apiCleaned [JItem.dict none])) := by
  refine ⟨rfl, by decide, by rfl, by rfl, ?_⟩
  intro h
  rw [show pySortedSet (apiCleaned [JItem.dict none]) = ([] : List String) from rfl] at h
  simp at h

/-- C8 amended: the API attempt returns the sorted deduplicated cleaned
links only when the payload is a non-empty JSON list yielding at least
one usable (non-empty string) link after cleanup; otherwise — API
exception, non-list payload, empty list, or a list with no usable link —
it falls back to the listing-page anchor scan, which keeps exactly the
fragment-cut slash-stripped resolved anchors that differ from the listing
URL and contain the `/multitrack/` segment, sorted and deduplicated. -/
theorem c8_amended (env : TelEnv) (index_url : String) :
    (∀ items, env.api_response = .ok (JData.arr items) → items ≠ [] → apiCleaned items ≠ [] →
        fetch_catalog_detail_links env index_url = .ok (pySortedSet (apiCleaned items))
        ∧ (pySortedSet (apiCleaned items)).Nodup
        ∧ (pySortedSet (apiCleaned items)).Pairwise (fun a b => pyStrLe a b = true)
        ∧ ∀ s, s ∈ pySortedSet (apiCleaned items) ↔ s ∈ apiCleaned items)
    ∧ (∀ e, env.api_response = .error e →
        fetch_catalog_detail_links env index_url = telFallback env index_url)
    ∧ (env.api_response = .ok JData.nonarr →
        fetch_catalog_detail_links env index_url = telFallback env index_url)
    ∧ (∀ items, env.api_response = .ok (JData.arr items) → (items = [] ∨ apiCleaned items = []) →
        fetch_catalog_detail_links env index_url = telFallback env index_url)
    ∧ (∀ status hrefs, env.listing_response = .ok (status, hrefs) → statusRaises status = false →
        telFallback env index_url = .ok (htmlScanUrls index_url hrefs))
    ∧ (∀ s hrefs, s ∈ htmlScanUrls index_url hrefs
        ↔ ∃ href ∈ hrefs, scanCandidate index_url href = some s) := by
  refine ⟨?_, ?_, ?_, ?_, ?_, ?_⟩
  · intro items hapi hne hcl
    refine ⟨?_, nodup_pySortedSet _, sorted_pySortedSet _, fun s => mem_pySortedSet s _⟩
    simp [fetch_catalog_detail_links, hapi, hne, hcl]
  · intro e hapi
    simp [fetch_catalog_detail_links, hapi]
  · intro hapi
    simp [fetch_catalog_detail_links, hapi]
  · intro items hapi hdeg
    rcases hdeg with h | h
    · simp [fetch_catalog_detail_links, hapi, h]
    · by_cases hne : items = []
      · simp [fetch_catalog_detail_links, hapi, hne]
      · simp [fetch_catalog_detail_links, hapi, hne, h]
  · intro status hrefs hl hs
    simp [telFallback, hl, hs]
  · intro s hrefs
    rw [htmlScanUrls, mem_pySortedSet, List.mem_filterMap]

/-- Witness for C8 amended: a good API payload returns its cleaned sorted
links; a failing API call falls back to the anchor scan. -/
theorem c8_amended_witness :
    (⟨.ok (JData.arr [JItem.dict (some (JVal.str "https://t.com/multitrack/b/")),
          JItem.dict (some (JVal.str "https://t.com/multitrack/a/"))]),
        .error "unreachable"⟩ : TelEnv).api_response
      = .ok (JData.arr [JItem.dict (some (JVal.str "https://t.com/multitrack/b/")),
          JItem.dict (some (JVal.str "https://t.com/multitrack/a/"))])
    ∧ ([JItem.dict (some (JVal.str "https://t.com/multitrack/b/")),
        JItem.dict (some (JVal.str "https://t.com/multitrack/a/"))] : List JItem) ≠ []
    ∧ apiCleaned [JItem.dict (some (JVal.str "https://t.com/multitrack/b/")),
        JItem.dict (some (JVal.str "https://t.com/multitrack/a/"))] ≠ []
    ∧ (fetch_catalog_detail_links
          ⟨.ok (JData.arr [JItem.dict (some (JVal.str "https://t.com/multitrack/b/")),
              JItem.dict (some (JVal.str "https://t.com/multitrack/a/"))]),
            .error "unreachable"⟩ "https://t.com/multitracks/"
        = .ok (pySortedSet (apiCleaned
            [JItem.dict (some (JVal.str "https://t.com/multitrack/b/")),
             JItem.dict (some (JVal.str "https://t.com/multitrack/a/"))]))
      ∧ (pySortedSet (apiCleaned
            [JItem.dict (some (JVal.str "https://t.com/multitrack/b/")),
             JItem.dict (some (JVal.str "https://t.com/multitrack/a/"))])).Nodup
      ∧ (pySortedSet (apiCleaned
            [JItem.dict (some (JVal.str "https://t.com/multitrack/b/")),
             JItem.dict (some (JVal.str "https://t.com/multitrack/a/"))])).Pairwise
          (fun a b => pyStrLe a b = true)
      ∧ ∀ s, s ∈ pySortedSet (apiCleaned
            [JItem.dict (some (JVal.str "https://t.com/multitrack/b/")),
             JItem.dict (some (JVal.str "https://t.com/multitrack/a/"))])
          ↔ s ∈ apiCleaned
            [JItem.dict (some (JVal.str "https://t.com/multitrack/b/")),
             JItem.dict (some (JVal.str "https://t.com/multitrack/a/"))]) :=
  ⟨rfl, by decide, by decide,
    (c8_amended ⟨.ok (JData.arr [JItem.dict (some (JVal.str "https://t.com/multitrack/b/")),
          JItem.dict (some (JVal.str "https://t.com/multitrack/a/"))]),
        .error "unreachable"⟩ "https://t.com/multitracks/").1
      [JItem.dict (some (JVal.str "https://t.com/multitrack/b/")),
       JItem.dict (some (JVal.str "https://t.com/multitrack/a/"))]
      rfl (by decide) (by decide)⟩

/-- C9: with every attempt completing normally, a positive delay yields
exactly one sleep event between consecutive items — the trace is the item
events separated by single sleeps, so no sleep precedes the first item or
follows the last, and the sleep count is one less than the item count —
while a non-positive delay yields no sleep events at all. -/
theorem c9_delay_pacing (td : String) (d : Rat) (att : Nat → AttemptResult)
    (items : List (String × String))
    (hok : ∀ i, i < items.length → isExc (att i) = false) :
    (0 < d →
      (runLoop td d att items).2
          = List.intersperse (Ev.sleep d) (items.map (fun p => Ev.item p.1))
      ∧ (runLoop td d att items).2.countP isSleepEv = items.length - 1)
    ∧ (¬ 0 < d → (runLoop td d att items).2 = items.map (fun p => Ev.item p.1)) := by
  constructor
  · intro hpos
    have h := runItemsAux_events_pos td d att items.length hpos items 0 initLoopState
      (by simp) (fun i _ h2 => hok i h2)
    rw [runLoop, h]
    exact ⟨rfl, countP_intersperse_sleep d items⟩
  · intro hnp
    rw [runLoop, runItemsAux_events_nonpos td d att items.length hnp items 0 initLoopState]

/-- Witness for C9: three items at delay 2 sleep exactly twice, with the
trace item-sleep-item-sleep-item; at delay 0 the same items never sleep. -/
theorem c9_delay_pacing_witness :
    (∀ i, i < ([("a", "ua"), ("b", "ub"), ("c", "uc")] : List (String × String)).length →
      isExc ((fun _ => AttemptResult.ok true 1) i) = false)
    ∧ ((0 < (2 : Rat) →
        (runLoop "t" 2 (fun _ => .ok true 1) [("a", "ua"), ("b", "ub"), ("c", "uc")]).2
            = List.intersperse (Ev.sleep 2)
                ([("a", "ua"), ("b", "ub"), ("c", "uc")].map (fun p => Ev.item p.1))
        ∧ (runLoop "t" 2 (fun _ => .ok true 1)
            [("a", "ua"), ("b", "ub"), ("c", "uc")]).2.countP isSleepEv
          = ([("a", "ua"), ("b", "ub"), ("c", "uc")] : List (String × String)).length - 1)
      ∧ (¬ 0 < (0 : Rat) →
          (runLoop "t" 0 (fun _ => .ok true 1) [("a", "ua"), ("b", "ub"), ("c", "uc")]).2
            = [("a", "ua"), ("b", "ub"), ("c", "uc")].map (fun p => Ev.item p.1))) :=
  ⟨fun _ _ => rfl,
    (c9_delay_pacing "t" 2 (fun _ => .ok true 1)
      [("a", "ua"), ("b", "ub"), ("c", "uc")] (fun _ _ => rfl)).1,
    (c9_delay_pacing "t" 0 (fun _ => .ok true 1)
      [("a", "ua"), ("b", "ub"), ("c", "uc")] (fun _ _ => rfl)).2⟩

/-- C10: a download that raises after writing a chunk leaves the partial
destination file on the modelled filesystem (no cleanup or rename), the
next inventory scan of that directory reports its lower-cased name, the
diff of a later run therefore drops the entry from the work list, and a
direct retry without overwrite short-circuits to the skip return with no
GET. -/
theorem c10_partial_file_persists (fs : Fs) (net net2 : String → HttpResponse)
    (url url2 dest : String) (chunk : List Nat) (e : String)
    (hnx : fsExists fs dest = false)
    (hnet : net url = ⟨200, [chunk], some e⟩)
    (hch : chunk ≠ []) :
    (download_with_progress fs net url dest false).outcome = .error e
    ∧ (download_with_progress fs net url dest false).fs = fsWrite fs dest chunk
    ∧ fsExists (fsWrite fs dest chunk) dest = true
    ∧ pyLower dest ∈ gather_existing_files
        [⟨true, (fsWrite fs dest chunk).map (fun p => ⟨p.1, true⟩)⟩]
    ∧ download_with_progress (fsWrite fs dest chunk) net2 url2 dest false
        = ⟨.ok (false, 0), fsWrite fs dest chunk, []⟩
    ∧ (diffA [(dest, url)]
        (gather_existing_files [⟨true, (fsWrite fs dest chunk).map (fun p => ⟨p.1, true⟩)⟩])
        false).to_process = [] := by
  have hrun : download_with_progress fs net url dest false
      = ⟨.error e, fsWrite fs dest chunk, [url]⟩ := by
    simp [download_with_progress, hnx, hnet, statusRaises, hch]
  have hex : fsExists (fsWrite fs dest chunk) dest = true := by
    simp [fsExists, fsWrite]
  have hmem : pyLower dest ∈ gather_existing_files
      [⟨true, (fsWrite fs dest chunk).map (fun p => ⟨p.1, true⟩)⟩] := by
    simp [gather_existing_files, fsWrite]
  refine ⟨by rw [hrun], by rw [hrun], hex, hmem, ?_, ?_⟩
  · simp [download_with_progress, hex]
  · simp [diffA, hmem]

/-- Witness for C10: from an empty directory, a stream that delivers one
chunk and then resets leaves the partial a.zip behind; the rescan sees it
and the retry skips it. -/
theorem c10_partial_file_persists_witness :
    fsExists [] "a.zip" = false
    ∧ (fun _ => (⟨200, [[1, 2]], some "connection reset"⟩ : HttpResponse)) "u"
      = ⟨200, [[1, 2]], some "connection reset"⟩
    ∧ ([1, 2] : List Nat) ≠ []
    ∧ ((download_with_progress [] (fun _ => ⟨200, [[1, 2]], some "connection reset"⟩)
          "u" "a.zip" false).outcome = .error "connection reset"
      ∧ (download_with_progress [] (fun _ => ⟨200, [[1, 2]], some "connection reset"⟩)
          "u" "a.zip" false).fs = fsWrite [] "a.zip" [1, 2]
      ∧ fsExists (fsWrite [] "a.zip" [1, 2]) "a.zip" = true
      ∧ pyLower "a.zip" ∈ gather_existing_files
          [⟨true, (fsWrite [] "a.zip" [1, 2]).map (fun p => ⟨p.1, true⟩)⟩]
      ∧ download_with_progress (fsWrite [] "a.zip" [1, 2])
          (fun _ => ⟨200, [[9]], none⟩) "u2" "a.zip" false
        = ⟨.ok (false, 0), fsWrite [] "a.zip" [1, 2], []⟩
      ∧ (diffA [("a.zip", "u")]
          (gather_existing_files [⟨true, (fsWrite [] "a.zip" [1, 2]).map (fun p => ⟨p.1, true⟩)⟩])
          false).to_process = []) :=
  ⟨rfl, rfl, by decide,
    c10_partial_file_persists [] (fun _ => ⟨200, [[1, 2]], some "connection reset"⟩)
      (fun _ => ⟨200, [[9]], none⟩) "u" "u2" "a.zip" [1, 2] "connection reset"
      rfl rfl (by decide)⟩

end Extractor




